import Mathlib

/-!
Shallow embedding of the `fixedwidth` utility (`src/main.rs`): a CLI tool
that converts ASCII text to fullwidth Unicode glyphs and optionally places
the result on the system clipboard, forking to the background when needed.

Pure functions (`fw_char`, argument joining, newline stripping) are
translated directly.  Effectful parts (stdin, environment variables,
clipboard, `fork`, `process::exit`) are modelled by a `World` record of
externally determined outcomes plus an event trace recording, in order,
the observable actions the process performs.  Rust panics (the `unwrap`
in `fw_char`) are modelled as `Option.none`.
-/

namespace Fixedwidth

/-- `const WIDE_SPACE: char = '\u{3000}'` -/
def WIDE_SPACE : Char := '　'

/-- `const FULLWIDTH_OFFSET: u32 = 0xFEE0` -/
def FULLWIDTH_OFFSET : Nat := 0xFEE0

/-- Model of Rust `char::from_u32`: `some` iff the value is a Unicode
scalar value. -/
def char_from_u32 (n : Nat) : Option Char :=
  if h : n.isValidChar then some (Char.ofNatAux n h) else none

/-- Model of `fn fw_char(c: char) -> char`.  The `.unwrap()` on
`char::from_u32` is modelled by returning `Option Char`, where `none`
stands for a panic. -/
def fw_char (c : Char) : Option Char :=
  if c = ' ' then some WIDE_SPACE
  else if '!' ≤ c ∧ c ≤ '~' then char_from_u32 (c.toNat + FULLWIDTH_OFFSET)
  else some c

/-- Char order is the order of the underlying code points. -/
lemma char_le_iff {a b : Char} : a ≤ b ↔ a.toNat ≤ b.toNat := by
  constructor
  · intro h
    exact h
  · intro h
    exact h

/-- Characters with equal code points are equal. -/
lemma char_eq_iff {a b : Char} : a = b ↔ a.toNat = b.toNat := by
  constructor
  · intro h; rw [h]
  · intro h
    exact Char.eq_of_val_eq (UInt32.ext h)

lemma toNat_ofNatAux {n : Nat} (h : n.isValidChar) :
    (Char.ofNatAux n h).toNat = n := rfl

lemma char_from_u32_eq_some {n : Nat} (h : n.isValidChar) :
    ∃ o : Char, char_from_u32 n = some o ∧ o.toNat = n := by
  refine ⟨Char.ofNatAux n h, ?_, toNat_ofNatAux h⟩
  simp [char_from_u32, h]

/-- `enum WaitMode { NoWait, Foreground, Background }` -/
inductive WaitMode where
  | NoWait
  | Foreground
  | Background
deriving DecidableEq, Repr

/-- Possible results of the `libc::fork()` call: `-1` (failure, with the OS
error message), `0` (we are the child), or a positive pid (we are the
parent). -/
inductive ForkResult where
  | fail (oserr : String)
  | parent
  | child
deriving DecidableEq, Repr

/-- Externally determined outcomes of the effectful operations the program
performs: the contents (or failure) of reading stdin, the two environment
variables consulted (`none` = unset), the outcome of `fork`, and the
outcomes of `Clipboard::new()` and `set.text(..)`. -/
structure World where
  stdin : Except String String
  display : Option String
  xdg_current_desktop : Option String
  fork : ForkResult
  clipInit : Except String Unit
  clipSet : Except String Unit

/-- Observable actions of one process, in program order. -/
inductive Event where
  | printStdout (text : List Char)
  | printStderr (msg : String)
  | forkCall
  | clipboardInit
  | clipboardSet (text : List Char) (wait : Bool)
deriving DecidableEq, Repr

/-- How a process's execution of a modelled function ends: a normal return
(with the Rust `Result`), a call to `std::process::exit code`, or a panic. -/
inductive ProcEnd where
  | ret (r : Except String Unit)
  | exited (code : Nat)
  | panicked
deriving Repr

/-- Model of the nested `fn inner(text, wait)` of `set_clipboard`: create a
clipboard handle, then set its contents (with the wait flag).  `anyhow`
contexts become message prefixes. -/
def inner (text : List Char) (wait : Bool) (w : World) :
    List Event × Except String Unit :=
  match w.clipInit with
  | .error e => ([Event.clipboardInit], .error ("failed to init clipboard: " ++ e))
  | .ok () =>
    match w.clipSet with
    | .error e => ([Event.clipboardInit, Event.clipboardSet text wait],
        .error ("failed to set clipboard contents: " ++ e))
    | .ok () => ([Event.clipboardInit, Event.clipboardSet text wait], .ok ())

/-- Model of `fn set_clipboard(text: &str, wait: WaitMode)`.  In
`Background` mode the process forks; the returned trace and end are those
of whichever process (`w.fork`) we observe. -/
def set_clipboard (text : List Char) (wait : WaitMode) (w : World) :
    List Event × ProcEnd :=
  match wait with
  | .NoWait =>
    match inner text false w with
    | (ev, r) => (ev, .ret r)
  | .Foreground =>
    match inner text true w with
    | (ev, r) => (ev, .ret r)
  | .Background =>
    match w.fork with
    | .fail e => ([Event.forkCall], .ret (.error ("fork failed: " ++ e)))
    | .child =>
      match inner text true w with
      | (ev, .ok ()) => (Event.forkCall :: ev, .exited 0)
      | (ev, .error err) =>
        (Event.forkCall :: (ev ++ [Event.printStderr ("fw clipboard error: " ++ err)]),
          .exited 1)
    | .parent => ([Event.forkCall], .ret (.ok ()))

/-- Model of `fn env_is_nonempty(var: &str) -> bool`, applied to the
already-looked-up value of the variable. -/
def env_is_nonempty : Option String → Bool
  | some val => !val.isEmpty
  | none => false

/-- The parsed command-line arguments: the three boolean flags and the
positional `text` arguments (`[]` = none given). -/
structure Args where
  no_clipboard : Bool
  no_wait : Bool
  foreground_wait : Bool
  text : List String

/-- `text.extend(word.chars().map(fw_char))` for one word; `none` models a
panic of `fw_char`. -/
def fwText (s : List Char) : Option (List Char) :=
  s.mapM fw_char

/-- The argument-joining loop of `run`: each word is transformed
per-character and a `WIDE_SPACE` is pushed after it iff another word
follows. -/
def joinArgs : List String → Option (List Char)
  | [] => some []
  | [word] => fwText word.data
  | word :: words => do
    let t ← fwText word.data
    let rest ← joinArgs words
    pure (t ++ WIDE_SPACE :: rest)

/-- The stdin post-processing of `run`:
`if input.ends_with('\n') { input.pop(); }`. -/
def stripNewline (s : List Char) : List Char :=
  if s.getLast? = some '\n' then s.dropLast else s

/-- The text-producing half of `run`: positional arguments joined if
present, otherwise stdin read (with its error contextualised), trailing
newline stripped, and transformed per-character.  The outer `Except` is
the stdin read error; the inner `none` models a `fw_char` panic. -/
def computeText (args : Args) (w : World) : Except String (Option (List Char)) :=
  if !args.text.isEmpty then
    .ok (joinArgs args.text)
  else
    match w.stdin with
    | .error e => .error ("failed to read stdin: " ++ e)
    | .ok input => .ok (fwText (stripNewline input.data))

/-- The wait-mode selection of `run` (reached only when the clipboard is
used). -/
def chooseMode (args : Args) (w : World) : WaitMode :=
  if args.no_wait then WaitMode.NoWait
  else if args.foreground_wait then WaitMode.Foreground
  else if env_is_nonempty w.xdg_current_desktop then WaitMode.NoWait
  else WaitMode.Background

/-- Model of `fn run()`: produce the text, print it, and — unless
`--no-clipboard` is set or `DISPLAY` is empty/unset — set the clipboard
with the chosen wait mode, propagating its error with `?`. -/
def run (args : Args) (w : World) : List Event × ProcEnd :=
  match computeText args w with
  | .error e => ([], .ret (.error e))
  | .ok none => ([], .panicked)
  | .ok (some text) =>
    if !args.no_clipboard && env_is_nonempty w.display then
      match set_clipboard text (chooseMode args w) w with
      | (ev, r) => (Event.printStdout text :: ev, r)
    else
      ([Event.printStdout text], .ret (.ok ()))

/-- Model of `fn main()`: run, and on an error return print it to stderr
and exit 1; a normal `Ok` return exits 0.  A Rust panic terminates the
process with code 101. -/
def main (args : Args) (w : World) : List Event × Nat :=
  match run args w with
  | (ev, .ret (.ok ())) => (ev, 0)
  | (ev, .ret (.error e)) => (ev ++ [Event.printStderr ("Error: " ++ e)], 1)
  | (ev, .exited code) => (ev, code)
  | (ev, .panicked) => (ev, 101)

/-! ### Helper lemmas about `fw_char` -/

lemma toNat_of_char_from_u32 {n : Nat} {o : Char}
    (h : char_from_u32 n = some o) : o.toNat = n := by
  unfold char_from_u32 at h
  split at h
  · cases h
    rfl
  · cases h

lemma ne_space_of_toNat {c : Char} (h : c.toNat ≠ 32) : c ≠ ' ' := by
  intro hc
  rw [char_eq_iff] at hc
  exact h (hc.trans rfl)

lemma valid_of_shifted {c : Char} (hlo : 33 ≤ c.toNat) (hhi : c.toNat ≤ 126) :
    (c.toNat + FULLWIDTH_OFFSET).isValidChar := by
  have hoff : FULLWIDTH_OFFSET = 0xFEE0 := rfl
  exact Or.inr ⟨by rw [hoff]; omega, by rw [hoff]; omega⟩

lemma fw_char_of_range {c : Char} (h1 : '!' ≤ c) (h2 : c ≤ '~') :
    ∃ o, fw_char c = some o ∧ o.toNat = c.toNat + FULLWIDTH_OFFSET := by
  have hlo : 33 ≤ c.toNat := char_le_iff.mp h1
  have hhi : c.toNat ≤ 126 := char_le_iff.mp h2
  have hne : c ≠ ' ' := ne_space_of_toNat (by omega)
  obtain ⟨o, ho, hto⟩ := char_from_u32_eq_some (valid_of_shifted hlo hhi)
  refine ⟨o, ?_, hto⟩
  rw [fw_char, if_neg hne, if_pos ⟨h1, h2⟩, ho]

lemma fw_char_of_other {c : Char} (h1 : c ≠ ' ') (h2 : ¬('!' ≤ c ∧ c ≤ '~')) :
    fw_char c = some c := by
  rw [fw_char, if_neg h1, if_neg h2]

lemma not_range_of_toNat {c : Char} (h : 126 < c.toNat ∨ c.toNat < 33) :
    ¬('!' ≤ c ∧ c ≤ '~') := by
  rintro ⟨h1, h2⟩
  have hlo : 33 ≤ c.toNat := char_le_iff.mp h1
  have hhi : c.toNat ≤ 126 := char_le_iff.mp h2
  omega

lemma fw_char_isSome (c : Char) : (fw_char c).isSome := by
  by_cases hsp : c = ' '
  · rw [fw_char, if_pos hsp]
    rfl
  · by_cases hr : '!' ≤ c ∧ c ≤ '~'
    · obtain ⟨o, ho, _⟩ := fw_char_of_range hr.1 hr.2
      rw [ho]
      rfl
    · rw [fw_char_of_other hsp hr]
      rfl

/-! ### Claims C3, C4, C10 -/

/-- C3: `fw_char` maps every character in `'!'..='~'` to the code point
shifted up by `0xFEE0`, maps the space to the ideographic space U+3000,
and maps every other character to itself unchanged. -/
theorem fw_char_mapping (c : Char) :
    ('!' ≤ c → c ≤ '~' →
      ∃ o, fw_char c = some o ∧ o.toNat = c.toNat + 0xFEE0) ∧
    (c = ' ' → fw_char c = some WIDE_SPACE ∧ WIDE_SPACE.toNat = 0x3000) ∧
    (c ≠ ' ' → ¬('!' ≤ c ∧ c ≤ '~') → fw_char c = some c) := by
  refine ⟨fun h1 h2 => fw_char_of_range h1 h2, fun hsp => ?_,
    fun h1 h2 => fw_char_of_other h1 h2⟩
  subst hsp
  exact ⟨rfl, rfl⟩

/-- Witness for C3 at concrete characters `'a'`, `' '` and `'\n'`. -/
theorem fw_char_mapping_witness :
    (∃ o, fw_char 'a' = some o ∧ o.toNat = 'a'.toNat + 0xFEE0) ∧
    (fw_char ' ' = some WIDE_SPACE ∧ WIDE_SPACE.toNat = 0x3000) ∧
    fw_char '\n' = some '\n' :=
  ⟨(fw_char_mapping 'a').1 (by decide) (by decide),
   (fw_char_mapping ' ').2.1 rfl,
   (fw_char_mapping '\n').2.2 (by decide) (by decide)⟩

/-- C4: applying the transform a second time is a no-op: whenever
`fw_char c` returns a character `o`, `fw_char o` returns `o` unchanged,
because every output of the transformed range lies outside that range. -/
theorem fw_char_second_application (c o : Char) (h : fw_char c = some o) :
    fw_char o = some o := by
  by_cases hsp : c = ' '
  · rw [fw_char, if_pos hsp] at h
    cases h
    rfl
  · by_cases hr : '!' ≤ c ∧ c ≤ '~'
    · rw [fw_char, if_neg hsp, if_pos hr] at h
      have hto : o.toNat = c.toNat + FULLWIDTH_OFFSET := toNat_of_char_from_u32 h
      have hhi : c.toNat ≤ 126 := char_le_iff.mp hr.2
      have hlo : 33 ≤ c.toNat := char_le_iff.mp hr.1
      have h126 : 126 < o.toNat := by
        rw [hto]
        simp only [FULLWIDTH_OFFSET]
        omega
      refine fw_char_of_other (ne_space_of_toNat ?_) (not_range_of_toNat (.inl h126))
      omega
    · rw [fw_char_of_other hsp hr] at h
      cases h
      exact fw_char_of_other hsp hr

/-- Witness for C4 at the concrete input `'a'`. -/
theorem fw_char_second_application_witness : fw_char 'ａ' = some 'ａ' :=
  fw_char_second_application 'a' 'ａ' (by decide)

/-- C10: the `unwrap` in `fw_char` never panics: for every `c` in
`'!'..='~'` the shifted code point is at most `0xFF5E` and is a valid
Unicode scalar value, so `char::from_u32` returns `some`, and `fw_char`
is total (`isSome`) on all characters. -/
theorem fw_char_unwrap_safe (c : Char) :
    ('!' ≤ c → c ≤ '~' →
      c.toNat + FULLWIDTH_OFFSET ≤ 0xFF5E ∧
      (c.toNat + FULLWIDTH_OFFSET).isValidChar ∧
      (char_from_u32 (c.toNat + FULLWIDTH_OFFSET)).isSome) ∧
    (fw_char c).isSome := by
  refine ⟨fun h1 h2 => ?_, fw_char_isSome c⟩
  have hlo : 33 ≤ c.toNat := char_le_iff.mp h1
  have hhi : c.toNat ≤ 126 := char_le_iff.mp h2
  have hle : c.toNat + FULLWIDTH_OFFSET ≤ 0xFF5E := by
    have hoff : FULLWIDTH_OFFSET = 0xFEE0 := rfl
    rw [hoff]
    omega
  have hvalid : (c.toNat + FULLWIDTH_OFFSET).isValidChar := valid_of_shifted hlo hhi
  obtain ⟨o, ho, _⟩ := char_from_u32_eq_some hvalid
  exact ⟨hle, hvalid, by rw [ho]; rfl⟩

/-- Witness for C10 at the concrete input `'~'`. -/
theorem fw_char_unwrap_safe_witness :
    '~'.toNat + FULLWIDTH_OFFSET ≤ 0xFF5E ∧
    ('~'.toNat + FULLWIDTH_OFFSET).isValidChar ∧
    (char_from_u32 ('~'.toNat + FULLWIDTH_OFFSET)).isSome :=
  (fw_char_unwrap_safe '~').1 (by decide) (by decide)

/-! ### Helper lemmas about `set_clipboard` in Background mode -/

lemma background_trace_head (text : List Char) (w : World) :
    ∃ rest, (set_clipboard text WaitMode.Background w).1
      = Event.forkCall :: rest := by
  unfold set_clipboard
  rcases hf : w.fork with e | _ | _
  · exact ⟨[], rfl⟩
  · exact ⟨[], rfl⟩
  · rcases hi : inner text true w with ⟨ev, r⟩
    rcases r with e | u
    · exact ⟨ev ++ [Event.printStderr ("fw clipboard error: " ++ e)], by simp [hi]⟩
    · exact ⟨ev, by simp [hi]⟩

/-! ### Claims C1, C2 -/

/-- C1: in Background wait mode, `set_clipboard` forks.  The parent
returns `Ok` immediately with no clipboard activity; the child performs
exactly the Foreground behavior (same clipboard events) and exits 0 on
success or exits 1 after printing the error; if the fork itself fails,
`set_clipboard` returns an error and no clipboard-set event ever
happens. -/
theorem set_clipboard_background_behavior (text : List Char) (w : World) :
    (w.fork = ForkResult.parent →
      set_clipboard text WaitMode.Background w
        = ([Event.forkCall], ProcEnd.ret (.ok ()))) ∧
    (w.fork = ForkResult.child →
      ∀ ev r, set_clipboard text WaitMode.Foreground w = (ev, ProcEnd.ret r) →
        (r = .ok () →
          set_clipboard text WaitMode.Background w
            = (Event.forkCall :: ev, ProcEnd.exited 0)) ∧
        (∀ err, r = .error err →
          set_clipboard text WaitMode.Background w
            = (Event.forkCall ::
                (ev ++ [Event.printStderr ("fw clipboard error: " ++ err)]),
               ProcEnd.exited 1))) ∧
    (∀ e, w.fork = ForkResult.fail e →
      set_clipboard text WaitMode.Background w
        = ([Event.forkCall], ProcEnd.ret (.error ("fork failed: " ++ e))) ∧
      ∀ t b, Event.clipboardSet t b ∉ (set_clipboard text WaitMode.Background w).1) := by
  refine ⟨fun hf => by simp [set_clipboard, hf], fun hf ev r hFg => ?_, fun e hf => ?_⟩
  · have hinner : inner text true w = (ev, r) := by
      unfold set_clipboard at hFg
      rcases hi : inner text true w with ⟨ev', r'⟩
      rw [hi] at hFg
      injection hFg with h1 h2
      injection h2 with h3
      rw [h1, h3]
    constructor
    · rintro rfl
      simp [set_clipboard, hf, hinner]
    · rintro err rfl
      simp [set_clipboard, hf, hinner]
  · constructor
    · simp [set_clipboard, hf]
    · intro t b
      simp [set_clipboard, hf]

/-- Witness for C1 at concrete worlds exercising the parent, the child
(success and failure), and the failed-fork outcomes. -/
theorem set_clipboard_background_behavior_witness :
    (set_clipboard [] WaitMode.Background
        ⟨.ok "", none, none, ForkResult.parent, .ok (), .ok ()⟩
      = ([Event.forkCall], ProcEnd.ret (.ok ()))) ∧
    (set_clipboard [] WaitMode.Background
        ⟨.ok "", none, none, ForkResult.child, .ok (), .ok ()⟩
      = (Event.forkCall :: [Event.clipboardInit, Event.clipboardSet [] true],
         ProcEnd.exited 0)) ∧
    (set_clipboard [] WaitMode.Background
        ⟨.ok "", none, none, ForkResult.child, .ok (), .error "boom"⟩
      = (Event.forkCall ::
          ([Event.clipboardInit, Event.clipboardSet [] true]
            ++ [Event.printStderr
                ("fw clipboard error: " ++ ("failed to set clipboard contents: " ++ "boom"))]),
         ProcEnd.exited 1)) ∧
    (set_clipboard [] WaitMode.Background
        ⟨.ok "", none, none, ForkResult.fail "ENOMEM", .ok (), .ok ()⟩
      = ([Event.forkCall], ProcEnd.ret (.error ("fork failed: " ++ "ENOMEM")))) :=
  ⟨(set_clipboard_background_behavior [] _).1 rfl,
   ((set_clipboard_background_behavior []
      ⟨.ok "", none, none, ForkResult.child, .ok (), .ok ()⟩).2.1 rfl
      [Event.clipboardInit, Event.clipboardSet [] true] (.ok ()) rfl).1 rfl,
   ((set_clipboard_background_behavior []
      ⟨.ok "", none, none, ForkResult.child, .ok (), .error "boom"⟩).2.1 rfl
      [Event.clipboardInit, Event.clipboardSet [] true]
      (.error ("failed to set clipboard contents: " ++ "boom")) rfl).2 _ rfl,
   ((set_clipboard_background_behavior []
      ⟨.ok "", none, none, ForkResult.fail "ENOMEM", .ok (), .ok ()⟩).2.2 "ENOMEM" rfl).1⟩

/-- C2: in Background mode the fork always comes strictly before any
clipboard-handle creation: in every process's trace, the first event is
the fork, and any `clipboardInit` event occurs at a strictly later
position. -/
theorem fork_precedes_clipboard_init (text : List Char) (w : World) (i : Nat)
    (h : (set_clipboard text WaitMode.Background w).1.get? i
      = some Event.clipboardInit) :
    (set_clipboard text WaitMode.Background w).1.get? 0
      = some Event.forkCall ∧ 0 < i := by
  obtain ⟨rest, hr⟩ := background_trace_head text w
  rw [hr]
  refine ⟨rfl, ?_⟩
  rcases i with _ | i
  · rw [hr] at h
    simp at h
  · omega

/-- Witness for C2: in a child-process trace the clipboard init appears at
position 1, after the fork at position 0. -/
theorem fork_precedes_clipboard_init_witness :
    (set_clipboard [] WaitMode.Background
        ⟨.ok "", none, none, ForkResult.child, .ok (), .ok ()⟩).1.get? 0
      = some Event.forkCall ∧ (0:Nat) < 1 :=
  fork_precedes_clipboard_init []
    ⟨.ok "", none, none, ForkResult.child, .ok (), .ok ()⟩ 1 rfl

/-! ### Helper lemmas about argument joining and `run`'s output -/

lemma intercalate_wide_singleton (t : List Char) :
    List.intercalate [WIDE_SPACE] [t] = t := by
  simp [List.intercalate]

lemma intercalate_wide_cons (t : List Char) (ts : List (List Char))
    (h : ts ≠ []) :
    List.intercalate [WIDE_SPACE] (t :: ts)
      = t ++ WIDE_SPACE :: List.intercalate [WIDE_SPACE] ts := by
  rcases ts with _ | ⟨u, us⟩
  · exact absurd rfl h
  · simp [List.intercalate, List.intersperse]

lemma mapM_fwText_ne_nil {w : String} {ws : List String}
    {ts : List (List Char)}
    (h : (w :: ws).mapM (fun word => fwText word.data) = some ts) :
    ts ≠ [] := by
  rw [List.mapM_cons] at h
  rcases hf : fwText w.data with _ | t <;> rw [hf] at h
  · simp at h
  · rcases hm : ws.mapM (fun word => fwText word.data) with _ | rest <;>
      rw [hm] at h
    · simp at h
    · simp at h
      rw [← h]
      exact List.cons_ne_nil _ _

lemma joinArgs_intercalate : ∀ (ws : List String) (ts : List (List Char)),
    ws ≠ [] → ws.mapM (fun word => fwText word.data) = some ts →
    joinArgs ws = some (List.intercalate [WIDE_SPACE] ts)
  | [], _, hne, _ => absurd rfl hne
  | [word], ts, _, h => by
    rw [List.mapM_cons, List.mapM_nil] at h
    rcases hft : fwText word.data with _ | t <;> rw [hft] at h
    · simp at h
    · simp at h
      rw [← h]
      simp [joinArgs, hft, intercalate_wide_singleton]
  | word :: word' :: words, ts, _, h => by
    rw [List.mapM_cons] at h
    rcases hft : fwText word.data with _ | t <;> rw [hft] at h
    · simp at h
    · rcases hmm : (word' :: words).mapM (fun word => fwText word.data)
        with _ | rest <;> rw [hmm] at h
      · simp at h
      · simp at h
        have hrec := joinArgs_intercalate (word' :: words) rest
          (List.cons_ne_nil _ _) hmm
        have hrest_ne : rest ≠ [] := mapM_fwText_ne_nil hmm
        rw [← h]
        simp [joinArgs, hft, hrec, intercalate_wide_cons t rest hrest_ne]

lemma run_of_computeText_some {args : Args} {w : World} {t : List Char}
    (h : computeText args w = .ok (some t)) :
    run args w = (if !args.no_clipboard && env_is_nonempty w.display then
        match set_clipboard t (chooseMode args w) w with
        | (ev, r) => (Event.printStdout t :: ev, r)
      else ([Event.printStdout t], ProcEnd.ret (.ok ()))) := by
  unfold run
  rw [h]

lemma run_of_computeText_error {args : Args} {w : World} {e : String}
    (h : computeText args w = .error e) :
    run args w = ([], ProcEnd.ret (.error e)) := by
  unfold run
  rw [h]

lemma run_of_computeText_none {args : Args} {w : World}
    (h : computeText args w = .ok none) :
    run args w = ([], ProcEnd.panicked) := by
  unfold run
  rw [h]

lemma run_head_printStdout {args : Args} {w : World} {t : List Char}
    (h : computeText args w = .ok (some t)) :
    (run args w).1.get? 0 = some (Event.printStdout t) := by
  rw [run_of_computeText_some h]
  split
  · rcases hsc : set_clipboard t (chooseMode args w) w with ⟨ev, r⟩
    rfl
  · rfl

/-! ### Claim C5 -/

/-- C5: for every non-empty argument list whose per-word transforms
succeed, the produced text is the transformed words joined by exactly one
`WIDE_SPACE` between each adjacent pair (an intercalation, so none at
either end); and the concrete invocation with `["hello", "world"]` prints
`"ｈｅｌｌｏ　ｗｏｒｌｄ"`. -/
theorem join_args_wide_space :
    (∀ (ws : List String) (ts : List (List Char)),
      ws ≠ [] →
      ws.mapM (fun word => fwText word.data) = some ts →
      joinArgs ws = some (List.intercalate [WIDE_SPACE] ts)) ∧
    (∀ w : World,
      (run ⟨false, false, false, ["hello", "world"]⟩ w).1.get? 0
        = some (Event.printStdout "ｈｅｌｌｏ　ｗｏｒｌｄ".data)) :=
  ⟨joinArgs_intercalate, fun _ => run_head_printStdout rfl⟩

/-- Witness for C5 at the concrete arguments `["hello", "world"]`. -/
theorem join_args_wide_space_witness :
    joinArgs ["hello", "world"]
      = some (List.intercalate [WIDE_SPACE] ["ｈｅｌｌｏ".data, "ｗｏｒｌｄ".data]) ∧
    (run ⟨false, false, false, ["hello", "world"]⟩
        ⟨.ok "", none, none, ForkResult.parent, .ok (), .ok ()⟩).1.get? 0
      = some (Event.printStdout "ｈｅｌｌｏ　ｗｏｒｌｄ".data) :=
  ⟨join_args_wide_space.1 ["hello", "world"] ["ｈｅｌｌｏ".data, "ｗｏｒｌｄ".data]
      (List.cons_ne_nil _ _) rfl,
   join_args_wide_space.2 ⟨.ok "", none, none, ForkResult.parent, .ok (), .ok ()⟩⟩

/-! ### Claim C6 -/

/-- C6: on the stdin path exactly one trailing newline (when present) is
stripped before the transform, a string not ending in a newline is left
alone, interior newlines pass through `fw_char` unchanged, and the
concrete invocation with stdin `"abc\n"` prints `"ａｂｃ"`. -/
theorem stdin_newline_handling :
    (∀ s : List Char, stripNewline (s ++ ['\n']) = s) ∧
    (∀ s : List Char, s.getLast? ≠ some '\n' → stripNewline s = s) ∧
    fw_char '\n' = some '\n' ∧
    (∀ (args : Args) (w : World), args.text = [] → w.stdin = .ok "abc\n" →
      (run args w).1.get? 0 = some (Event.printStdout "ａｂｃ".data)) := by
  refine ⟨fun s => ?_, fun s h => ?_, rfl, fun args w hargs hstdin => ?_⟩
  · rw [stripNewline, if_pos (List.getLast?_concat s), List.dropLast_concat]
  · rw [stripNewline, if_neg h]
  · have hct : computeText args w = .ok (some "ａｂｃ".data) := by
      unfold computeText
      rw [hargs, hstdin]
      rfl
    exact run_head_printStdout hct

/-- Witness for C6 at the concrete inputs `"ab" ++ "\n"`, `"ab"` and a
world whose stdin holds `"abc\n"`. -/
theorem stdin_newline_handling_witness :
    stripNewline ("ab".data ++ ['\n']) = "ab".data ∧
    stripNewline "ab".data = "ab".data ∧
    (run ⟨true, false, false, []⟩
        ⟨.ok "abc\n", none, none, ForkResult.parent, .ok (), .ok ()⟩).1.get? 0
      = some (Event.printStdout "ａｂｃ".data) :=
  ⟨stdin_newline_handling.1 "ab".data,
   stdin_newline_handling.2.1 "ab".data (by decide),
   stdin_newline_handling.2.2.2 ⟨true, false, false, []⟩
     ⟨.ok "abc\n", none, none, ForkResult.parent, .ok (), .ok ()⟩ rfl rfl⟩

/-! ### Claim C7 -/

/-- C7: when `--no-clipboard` is set, or when `DISPLAY` is unset or empty,
`run` performs no clipboard action (no init, no set, no fork); whenever
the text is produced successfully it only prints it and returns `Ok`. -/
theorem clipboard_skipped (args : Args) (w : World)
    (h : args.no_clipboard = true ∨ env_is_nonempty w.display = false) :
    (Event.clipboardInit ∉ (run args w).1 ∧
     Event.forkCall ∉ (run args w).1 ∧
     ∀ t b, Event.clipboardSet t b ∉ (run args w).1) ∧
    (∀ t, computeText args w = .ok (some t) →
      run args w = ([Event.printStdout t], ProcEnd.ret (.ok ()))) := by
  have hcond : (!args.no_clipboard && env_is_nonempty w.display) = false := by
    rcases h with h | h <;> simp [h]
  have hok : ∀ t, computeText args w = .ok (some t) →
      run args w = ([Event.printStdout t], ProcEnd.ret (.ok ())) := by
    intro t hct
    rw [run_of_computeText_some hct, hcond]
    rfl
  refine ⟨?_, hok⟩
  rcases hct : computeText args w with e | o
  · rw [run_of_computeText_error hct]
    simp
  · rcases o with _ | t
    · rw [run_of_computeText_none hct]
      simp
    · rw [hok t hct]
      simp

/-- Witness for C7: with `--no-clipboard` set and `DISPLAY` present, no
clipboard action happens and the transformed argument is printed. -/
theorem clipboard_skipped_witness :
    (Event.clipboardInit
        ∉ (run ⟨true, false, false, ["hi"]⟩
            ⟨.ok "", some ":0", none, ForkResult.parent, .ok (), .ok ()⟩).1 ∧
     Event.forkCall
        ∉ (run ⟨true, false, false, ["hi"]⟩
            ⟨.ok "", some ":0", none, ForkResult.parent, .ok (), .ok ()⟩).1 ∧
     ∀ t b, Event.clipboardSet t b
        ∉ (run ⟨true, false, false, ["hi"]⟩
            ⟨.ok "", some ":0", none, ForkResult.parent, .ok (), .ok ()⟩).1) ∧
    (∀ t, computeText ⟨true, false, false, ["hi"]⟩
            ⟨.ok "", some ":0", none, ForkResult.parent, .ok (), .ok ()⟩
          = .ok (some t) →
      run ⟨true, false, false, ["hi"]⟩
          ⟨.ok "", some ":0", none, ForkResult.parent, .ok (), .ok ()⟩
        = ([Event.printStdout t], ProcEnd.ret (.ok ()))) :=
  clipboard_skipped ⟨true, false, false, ["hi"]⟩
    ⟨.ok "", some ":0", none, ForkResult.parent, .ok (), .ok ()⟩ (Or.inl rfl)

/-! ### Claim C8 -/

/-- C8: the wait mode is `NoWait` when `--no-wait` is given, `Foreground`
when `--foreground-wait` is given, and otherwise is chosen from the
environment: `NoWait` when `XDG_CURRENT_DESKTOP` is present and
non-empty, `Background` otherwise. -/
theorem wait_mode_selection (args : Args) (w : World) :
    (args.no_wait = true → chooseMode args w = WaitMode.NoWait) ∧
    (args.no_wait = false → args.foreground_wait = true →
      chooseMode args w = WaitMode.Foreground) ∧
    (args.no_wait = false → args.foreground_wait = false →
      (env_is_nonempty w.xdg_current_desktop = true →
        chooseMode args w = WaitMode.NoWait) ∧
      (env_is_nonempty w.xdg_current_desktop = false →
        chooseMode args w = WaitMode.Background)) :=
  ⟨fun h => by simp [chooseMode, h],
   fun h1 h2 => by simp [chooseMode, h1, h2],
   fun h1 h2 =>
     ⟨fun h3 => by simp [chooseMode, h1, h2, h3],
      fun h3 => by simp [chooseMode, h1, h2, h3]⟩⟩

/-- Witness for C8 at concrete flag/environment combinations. -/
theorem wait_mode_selection_witness :
    chooseMode ⟨false, true, false, []⟩
        ⟨.ok "", some ":0", none, ForkResult.parent, .ok (), .ok ()⟩
      = WaitMode.NoWait ∧
    chooseMode ⟨false, false, true, []⟩
        ⟨.ok "", some ":0", none, ForkResult.parent, .ok (), .ok ()⟩
      = WaitMode.Foreground ∧
    chooseMode ⟨false, false, false, []⟩
        ⟨.ok "", some ":0", some "GNOME", ForkResult.parent, .ok (), .ok ()⟩
      = WaitMode.NoWait ∧
    chooseMode ⟨false, false, false, []⟩
        ⟨.ok "", some ":0", none, ForkResult.parent, .ok (), .ok ()⟩
      = WaitMode.Background :=
  ⟨(wait_mode_selection ⟨false, true, false, []⟩ _).1 rfl,
   (wait_mode_selection ⟨false, false, true, []⟩ _).2.1 rfl rfl,
   ((wait_mode_selection ⟨false, false, false, []⟩
      ⟨.ok "", some ":0", some "GNOME", ForkResult.parent, .ok (), .ok ()⟩).2.2
      rfl rfl).1 rfl,
   ((wait_mode_selection ⟨false, false, false, []⟩
      ⟨.ok "", some ":0", none, ForkResult.parent, .ok (), .ok ()⟩).2.2
      rfl rfl).2 rfl⟩

/-! ### Claim C9 -/

/-- C9: a stdin read failure makes the process print the error to stderr
and exit 1 before any stdout output; in every successful-text path the
transformed text is printed first; the process exits 0 when `run` returns
`Ok` and exits 1, printing the error to stderr, when `run` returns an
error (such as a clipboard or fork failure in the main process path). -/
theorem exit_code_discipline (args : Args) (w : World) :
    (∀ e, args.text = [] → w.stdin = .error e →
      main args w
        = ([Event.printStderr ("Error: " ++ ("failed to read stdin: " ++ e))], 1) ∧
      ∀ t, Event.printStdout t ∉ (main args w).1) ∧
    (∀ t, computeText args w = .ok (some t) →
      (run args w).1.get? 0 = some (Event.printStdout t)) ∧
    ((run args w).2 = ProcEnd.ret (.ok ()) → (main args w).2 = 0) ∧
    (∀ e, (run args w).2 = ProcEnd.ret (.error e) →
      (main args w).2 = 1 ∧
      Event.printStderr ("Error: " ++ e) ∈ (main args w).1) := by
  refine ⟨fun e hargs hstdin => ?_, fun t hct => run_head_printStdout hct,
    fun h => ?_, fun e h => ?_⟩
  · have hct : computeText args w = .error ("failed to read stdin: " ++ e) := by
      unfold computeText
      rw [hargs, hstdin]
      rfl
    have hmain : main args w
        = ([Event.printStderr ("Error: " ++ ("failed to read stdin: " ++ e))], 1) := by
      unfold main
      rw [run_of_computeText_error hct]
      rfl
    refine ⟨hmain, fun t => ?_⟩
    rw [hmain]
    simp
  · rcases hr : run args w with ⟨ev, pe⟩
    rw [hr] at h
    have hpe : pe = ProcEnd.ret (.ok ()) := h
    subst hpe
    unfold main
    rw [hr]
  · rcases hr : run args w with ⟨ev, pe⟩
    rw [hr] at h
    have hpe : pe = ProcEnd.ret (.error e) := h
    subst hpe
    have hm : main args w = (ev ++ [Event.printStderr ("Error: " ++ e)], 1) := by
      unfold main
      rw [hr]
    rw [hm]
    exact ⟨rfl, by simp⟩

/-- Witness for C9: a failing stdin read exits 1 with only a stderr
message; a successful no-clipboard invocation exits 0; a clipboard init
failure in the main process exits 1 with the error on stderr. -/
theorem exit_code_discipline_witness :
    (main ⟨true, false, false, []⟩
        ⟨.error "io error", none, none, ForkResult.parent, .ok (), .ok ()⟩
      = ([Event.printStderr ("Error: " ++ ("failed to read stdin: " ++ "io error"))], 1)) ∧
    ((main ⟨true, false, false, ["hi"]⟩
        ⟨.ok "", none, none, ForkResult.parent, .ok (), .ok ()⟩).2 = 0) ∧
    ((main ⟨false, true, false, ["hi"]⟩
        ⟨.ok "", some ":0", none, ForkResult.parent, .error "no x11", .ok ()⟩).2 = 1 ∧
     Event.printStderr ("Error: " ++ ("failed to init clipboard: " ++ "no x11"))
        ∈ (main ⟨false, true, false, ["hi"]⟩
            ⟨.ok "", some ":0", none, ForkResult.parent, .error "no x11", .ok ()⟩).1) :=
  ⟨((exit_code_discipline ⟨true, false, false, []⟩
      ⟨.error "io error", none, none, ForkResult.parent, .ok (), .ok ()⟩).1
      "io error" rfl rfl).1,
   (exit_code_discipline ⟨true, false, false, ["hi"]⟩
      ⟨.ok "", none, none, ForkResult.parent, .ok (), .ok ()⟩).2.2.1 rfl,
   (exit_code_discipline ⟨false, true, false, ["hi"]⟩
      ⟨.ok "", some ":0", none, ForkResult.parent, .error "no x11", .ok ()⟩).2.2.2
      ("failed to init clipboard: " ++ "no x11") rfl⟩

end Fixedwidth
